import Mathlib

/-!
Verification development for the EmailMonitor polling script (`src/main.py`).
The embedding covers the polling-and-deduplication core: the processed-UID
registry, message decoding outcomes, embed construction, webhook sending,
sent-folder resolution, `check_folder`, the monitoring loop's folder checks,
and the `EmailMonitor` constructor. Timestamp text rendering is the only
abstracted detail (no property below inspects it).
-/

/-- Python character-based string slicing `s[:n]`, acting on the character
sequence of the string. -/
def pySlice (s : String) (n : Nat) : String := String.mk (s.data.take n)

/-- Python truthiness choice on strings: `a or b` yields `b` exactly when
`a` is empty. -/
def pyOr (a b : String) : String := if a = "" then b else a

/-- The processed-UID registry `self.processed_uids`: a mapping from folder
name to the set of message identifiers already handled, modelled as an
association list of folder names to identifier lists with set semantics
given by membership. -/
abbrev Registry := List (String × List Nat)

/-- Lookup with default empty set: `self.processed_uids.get(folder, set())`. -/
def Registry.get : Registry → String → List Nat
  | [], _ => []
  | (g, s) :: r, f => if g = f then s else Registry.get r f

/-- Key membership: `folder in self.processed_uids`. -/
def Registry.hasKey : Registry → String → Bool
  | [], _ => false
  | (g, _) :: r, f => g = f || Registry.hasKey r f

/-- Set insertion at a key: `self.processed_uids[folder].add(email_id)`. -/
def Registry.addId : Registry → String → Nat → Registry
  | [], _, _ => []
  | (g, s) :: r, f, i =>
    (g, if g = f ∧ i ∉ s then i :: s else s) :: Registry.addId r f i

/-- Lines 410-411 of main.py: insert an empty set when the folder key is
missing. -/
def Registry.ensure (r : Registry) (f : String) : Registry :=
  if r.hasKey f then r else r ++ [(f, [])]

/-- Initial registry built by `EmailMonitor.__init__` (lines 195-198). -/
def initRegistry : Registry := [("INBOX", []), ("SENT", [])]

/-- A decoded message as consumed by `check_folder` (lines 417-437): decoded
Subject/From/To headers, the Date header as epoch seconds when it parses
(`none` models a missing or unparsable Date, handled at lines 424-429), and
the plain-text content from `get_plain_text_content`. -/
structure Msg where
  subject : String
  sender : String
  recipient : String
  date : Option Int
  content : String
deriving DecidableEq, Repr

/-- Outcome of `mail.fetch(email_id, '(RFC822)')` followed by decoding:
`fail` models a non-OK fetch status (line 414), `exn` models an exception
raised while decoding the fetched message (caught only by the folder-level
handler at line 454), `ok` a successfully decoded message. -/
inductive FetchResult where
  | fail
  | exn
  | ok (m : Msg)
deriving DecidableEq, Repr

/-- One labelled field of the notification payload. -/
structure EmbedField where
  name : String
  value : String
  inline : Bool
deriving DecidableEq, Repr

/-- The notification payload built by `create_embed` (lines 291-320): a
color code, an ISO timestamp, a title and an ordered list of fields. -/
structure Embed where
  color : Nat
  timestamp : String
  title : String
  fields : List EmbedField
deriving DecidableEq, Repr

/-- Rendering of `date_time.isoformat()` on the epoch-second model of
datetimes; no property below inspects this text, so the calendar rendering
is abstracted to the numeral. -/
def isoformat (t : Int) : String := toString t

/-- Rendering of `date_time.strftime("%Y-%m-%d %H:%M:%S UTC")`; same
abstraction as `isoformat`. -/
def strftimeUTC (t : Int) : String := toString t ++ " UTC"

/-- Lines 200-203: the COLORS table, keyed by email type. The dictionary is
only ever indexed with "received" or "sent". -/
def COLORS (email_type : String) : Nat :=
  if email_type = "received" then 0x00FF00 else 0x0099FF

/-- Line 293: the maximum content length of an embed. -/
def max_content_length : Nat := 3000

/-- Line 295: the marker appended to truncated content. -/
def truncationMarker : String := "... (truncated)"

/-- Shallow embedding of `EmailMonitor.create_embed` (lines 291-320). -/
def create_embed (email_type subject sender recipient content0 : String)
    (date_time : Int) : Embed :=
  let content :=
    if content0.length > max_content_length then
      pySlice content0 max_content_length ++ truncationMarker
    else content0
  if email_type = "received" then
    { color := COLORS "received", timestamp := isoformat date_time,
      title := "Received",
      fields := [
        ⟨"From", sender, true⟩,
        ⟨"Date", strftimeUTC date_time, true⟩,
        ⟨"Subject", pyOr subject "(No Subject)", false⟩,
        ⟨"Content", pyOr content "(No content)", false⟩] }
  else
    { color := COLORS "sent", timestamp := isoformat date_time,
      title := "Sent",
      fields := [
        ⟨"To", recipient, true⟩,
        ⟨"Date", strftimeUTC date_time, true⟩,
        ⟨"Subject", pyOr subject "(No Subject)", false⟩,
        ⟨"Content", pyOr content "(No content)", false⟩] }

/-- Shallow embedding of `EmailMonitor.parse_email_addresses`
(lines 252-263). -/
def parse_email_addresses (address_string : String) : List String :=
  if address_string = "" then []
  else (address_string.splitOn ",").map fun addr0 =>
    let addr := addr0.trim
    if addr.contains '<' && addr.contains '>' then
      (((addr.splitOn "<").getD 1 "").splitOn ">").headD ""
    else addr

/-- An HTTP POST outcome as observed at lines 271-289: a response carrying
its status code, or a raised exception. -/
inductive PostOutcome where
  | response (statusCode : Nat)
  | exn
deriving DecidableEq, Repr

/-- The JSON document posted to the webhook: `{"embeds": [embed_data]}`
(lines 267-269). -/
structure WebhookPayload where
  embeds : List Embed
deriving DecidableEq, Repr

/-- Shallow embedding of `EmailMonitor.send_discord_webhook` (lines
265-289): the boolean result together with the list of payloads POSTed
during the call, one entry per `requests.post` invocation. -/
def send_discord_webhook (post : WebhookPayload → PostOutcome)
    (embed_data : Embed) : Bool × List WebhookPayload :=
  let payload : WebhookPayload := ⟨[embed_data]⟩
  match post payload with
  | .response code => if code = 204 then (true, [payload]) else (false, [payload])
  | .exn => (false, [payload])

/-- Lines 357-365: the ordered candidate list for the sent folder. -/
def possible_sent_folders : List String :=
  ["Sent", "INBOX.Sent", "INBOX/Sent", "Sent Items", "Sent Messages",
   "INBOX.Sent Items", "INBOX.Sent Messages"]

/-- The for-loop of `find_sent_folder` (lines 367-381); `selectOk f` models
`mail.select(f, readonly=True)` returning status OK, with a raised
exception counting as not OK (it is caught and the loop continues). -/
def findSentFolderLoop (selectOk : String → Bool) : List String → Option String
  | [] => none
  | f :: rest => if selectOk f then some f else findSentFolderLoop selectOk rest

/-- Shallow embedding of `EmailMonitor.find_sent_folder` (lines 356-381). -/
def find_sent_folder (selectOk : String → Bool) : Option String :=
  findSentFolderLoop selectOk possible_sent_folders

/-- The IMAP session surface used by `check_folder`: `select` yields the
message count when the status is OK and `none` otherwise, `search` yields
the identifier list for a criteria string when the status is OK, and
`fetch` gives the per-identifier fetch/decode outcome. -/
structure Mailbox where
  select : String → Option Nat
  search : String → Option (List Nat)
  fetch : Nat → FetchResult

/-- Lines 393-394: the search criteria by email type. -/
def searchCriteria (email_type : String) : String :=
  if email_type = "received" then "UNSEEN" else "ALL"

/-- Observable outcome of one `check_folder` call: the boolean return
value, the registry afterwards, the identifiers passed to `mail.fetch` in
order, and one entry per `send_discord_webhook` call holding the
identifier, the embed and the boolean send result. -/
structure CheckOutcome where
  ok : Bool
  registry : Registry
  fetched : List Nat
  notified : List (Nat × Embed × Bool)
deriving Repr

/-- Line 433: sent messages older than 300 seconds are marked without
notifying. -/
def sentAgeLimit : Int := 300

/-- The per-identifier for-loop of `check_folder` (lines 406-450), with
`now` the value of `datetime.now(timezone.utc)` in epoch seconds. A decode
exception escapes to the handler at line 454, so the call returns False
with the loop abandoned. -/
def checkFolderLoop (send : Embed → Bool) (fetch : Nat → FetchResult)
    (now : Int) (folder email_type : String) :
    List Nat → Registry → CheckOutcome
  | [], reg => ⟨true, reg, [], []⟩
  | email_id :: rest, reg =>
    if email_id ∈ reg.get folder then
      checkFolderLoop send fetch now folder email_type rest reg
    else
      let reg1 := reg.ensure folder
      match fetch email_id with
      | .fail =>
        let o := checkFolderLoop send fetch now folder email_type rest reg1
        { o with fetched := email_id :: o.fetched }
      | .exn => ⟨false, reg1, [email_id], []⟩
      | .ok m =>
        let email_date := m.date.getD now
        if email_type = "sent" ∧ sentAgeLimit < now - email_date then
          let o := checkFolderLoop send fetch now folder email_type rest
            (reg1.addId folder email_id)
          { o with fetched := email_id :: o.fetched }
        else
          let embed :=
            if email_type = "received" then
              create_embed "received" m.subject m.sender "" m.content email_date
            else
              create_embed "sent" m.subject ""
                (String.intercalate ", " (parse_email_addresses m.recipient))
                m.content email_date
          let result := send embed
          let o := checkFolderLoop send fetch now folder email_type rest
            (reg1.addId folder email_id)
          { o with fetched := email_id :: o.fetched,
                   notified := (email_id, embed, result) :: o.notified }

/-- Shallow embedding of `EmailMonitor.check_folder` (lines 383-456). -/
def check_folder (send : Embed → Bool) (now : Int) (mail : Mailbox)
    (folder email_type : String) (reg : Registry) : CheckOutcome :=
  match mail.select folder with
  | none => ⟨false, reg, [], []⟩
  | some _ =>
    match mail.search (searchCriteria email_type) with
    | none => ⟨false, reg, [], []⟩
    | some email_ids =>
      checkFolderLoop send mail.fetch now folder email_type email_ids reg

/-- State carried across iterations of the monitoring loop
(lines 462-463). -/
structure MonitorState where
  first_run : Bool
  sent_folder : Option String
deriving DecidableEq, Repr

/-- One iteration of the `monitor_emails` while-loop (lines 465-507),
abstracted to the folder checks it performs: the inbox check at line 491 is
unconditional, the sent check at line 496 happens exactly when a sent
folder is resolved. Folder discovery runs on the first iteration only. -/
def monitorStep (selectOk : String → Bool) (st : MonitorState) :
    MonitorState × List String :=
  let sf := if st.first_run then find_sent_folder selectOk else st.sent_folder
  (⟨false, sf⟩, "INBOX" :: (match sf with | some f => [f] | none => []))

/-- Folder checks performed by the first `n` iterations of the monitoring
loop. -/
def monitorRun (selectOk : String → Bool) (st : MonitorState) :
    Nat → List (List String)
  | 0 => []
  | n + 1 =>
    let p := monitorStep selectOk st
    p.2 :: monitorRun selectOk p.1 n

/-- Environment as read by `__init__`: the parsed integer value of the
CHECK_INTERVAL variable when it is set; line 193 reads the variable with
default "60" and parses it. -/
structure Env where
  CHECK_INTERVAL : Option Int
deriving DecidableEq, Repr

/-- Constructor-visible state of an `EmailMonitor` (lines 186-203); the
constant COLORS table is kept as the global `COLORS` (identical on every
instance). -/
structure EmailMonitorState where
  imap_server : String
  imap_port : Nat
  username : String
  password : String
  discord_webhook_url : String
  check_interval : Int
  processed_uids : Registry
deriving DecidableEq, Repr

/-- Shallow embedding of `EmailMonitor.__init__` (lines 186-198). The
`check_interval` parameter is in the signature, but line 193 assigns the
attribute from the environment instead. -/
def EmailMonitor.init (env : Env) (imap_server : String) (imap_port : Nat)
    (username password discord_webhook_url : String) (check_interval : Int) :
    EmailMonitorState :=
  { imap_server := imap_server, imap_port := imap_port, username := username,
    password := password, discord_webhook_url := discord_webhook_url,
    check_interval := (env.CHECK_INTERVAL).getD 60,
    processed_uids := initRegistry }

/-- Value of the Content field of an embed (empty when absent). -/
def contentValue (e : Embed) : String :=
  ((e.fields.find? (fun fl => fl.name == "Content")).map (fun fl => fl.value)).getD ""

/-- A content string of 3001 characters, one over the truncation limit. -/
def longContent : String := String.mk (List.replicate 3001 'a')

/-- Concrete mailbox whose search reports identifier 5 (used with a registry
that already holds 5). -/
def c1Mail : Mailbox :=
  ⟨fun _ => some 1, fun _ => some [5], fun _ => FetchResult.fail⟩

/-- Concrete sent message dated at epoch second 0. -/
def c2Msg : Msg := ⟨"s", "a@x.com", "b@x.com", some 0, "hello"⟩

/-- Concrete mailbox whose search reports identifier 3, fetching to
`c2Msg`. -/
def c2Mail : Mailbox :=
  ⟨fun _ => some 1, fun _ => some [3], fun _ => FetchResult.ok c2Msg⟩

/-- Scenario mailbox: the inbox holds exactly one unseen message, with
identifier 1, subject "Hi" and sender "a@x.com". -/
def c4Mailbox (content : String) (d : Option Int) : Mailbox :=
  ⟨fun f => if f = "INBOX" then some 1 else none,
   fun c => if c = "UNSEEN" then some [1] else some [],
   fun i => if i = 1 then FetchResult.ok ⟨"Hi", "a@x.com", "", d, content⟩
            else FetchResult.fail⟩

/-- Concrete received message dated at epoch second 0. -/
def c7Msg : Msg := ⟨"Hi", "a@x.com", "", some 0, ""⟩

/-- Concrete mailbox whose search reports identifier 4, fetching to
`c7Msg`. -/
def c7Mail : Mailbox :=
  ⟨fun _ => some 1, fun _ => some [4], fun _ => FetchResult.ok c7Msg⟩

/-- The embed built for `c7Msg` at epoch time 5. -/
def c7Embed : Embed := create_embed "received" "Hi" "a@x.com" "" "" 0

/-- Concrete message for the decode-failure scenario. -/
def c8Msg : Msg := ⟨"x", "y", "", some 0, ""⟩

/-- Concrete mailbox whose search reports identifiers 1 and 2, where
fetching 1 raises during decoding and 2 decodes fine. -/
def c8Mail : Mailbox :=
  ⟨fun _ => some 2, fun _ => some [1, 2],
   fun i => if i = 1 then FetchResult.exn else FetchResult.ok c8Msg⟩

/-! ### Registry lemmas -/

theorem Registry.get_append_empty (r : Registry) (f g : String) :
    Registry.get (r ++ [(f, [])]) g = Registry.get r g := by
  induction r with
  | nil => simp [Registry.get]
  | cons p r ih =>
    obtain ⟨k, s⟩ := p
    simp only [List.cons_append, Registry.get]
    split <;> simp [ih]

theorem Registry.get_ensure (r : Registry) (f g : String) :
    (r.ensure f).get g = r.get g := by
  unfold Registry.ensure
  split
  · rfl
  · exact Registry.get_append_empty r f g

theorem Registry.hasKey_append_empty (r : Registry) (f : String) :
    Registry.hasKey (r ++ [(f, [])]) f = true := by
  induction r with
  | nil => simp [Registry.hasKey]
  | cons p r ih =>
    obtain ⟨k, s⟩ := p
    simp only [List.cons_append, Registry.hasKey]
    simp [ih]

theorem Registry.hasKey_ensure_self (r : Registry) (f : String) :
    (r.ensure f).hasKey f = true := by
  unfold Registry.ensure
  split
  · assumption
  · exact Registry.hasKey_append_empty r f

theorem Registry.mem_get_addId_self (r : Registry) (f : String) (i : Nat)
    (h : r.hasKey f = true) : i ∈ (r.addId f i).get f := by
  induction r with
  | nil => simp [Registry.hasKey] at h
  | cons p r ih =>
    obtain ⟨k, s⟩ := p
    by_cases hk : k = f
    · subst hk
      by_cases hi : i ∈ s
      · simp [Registry.addId, Registry.get, hi]
      · simp [Registry.addId, Registry.get, hi]
    · simp only [Registry.hasKey, Bool.or_eq_true, decide_eq_true_eq] at h
      rcases h with h | h
      · exact absurd h hk
      · simp only [Registry.addId, Registry.get, if_neg hk]
        exact ih h

theorem Registry.mem_get_addId_of_mem (r : Registry) (f g : String)
    (i j : Nat) (h : i ∈ r.get g) : i ∈ (r.addId f j).get g := by
  induction r with
  | nil => simp [Registry.get] at h
  | cons p r ih =>
    obtain ⟨k, s⟩ := p
    by_cases hk : k = g
    · simp only [Registry.get, if_pos hk] at h
      simp only [Registry.addId, Registry.get, if_pos hk]
      split
      · exact List.mem_cons_of_mem _ h
      · exact h
    · simp only [Registry.get, if_neg hk] at h
      simp only [Registry.addId, Registry.get, if_neg hk]
      exact ih h

theorem Registry.mem_get_addId_elim (r : Registry) (f g : String)
    (i j : Nat) (h : i ∈ (r.addId f j).get g) : i ∈ r.get g ∨ i = j := by
  induction r with
  | nil => simp [Registry.addId, Registry.get] at h
  | cons p r ih =>
    obtain ⟨k, s⟩ := p
    by_cases hk : k = g
    · simp only [Registry.addId, Registry.get, if_pos hk] at h
      simp only [Registry.get, if_pos hk]
      revert h
      split
      · intro h
        rcases List.mem_cons.mp h with h | h
        · exact Or.inr h
        · exact Or.inl h
      · intro h
        exact Or.inl h
    · simp only [Registry.addId, Registry.get, if_neg hk] at h
      simp only [Registry.get, if_neg hk]
      exact ih h

/-! ### checkFolderLoop lemmas -/

theorem checkFolderLoop_mono (send : Embed → Bool) (fetch : Nat → FetchResult)
    (now : Int) (folder email_type : String) (ids : List Nat) (reg : Registry)
    (g : String) (i : Nat) (h : i ∈ reg.get g) :
    i ∈ (checkFolderLoop send fetch now folder email_type ids reg).registry.get g := by
  induction ids generalizing reg with
  | nil => simpa [checkFolderLoop] using h
  | cons id rest ih =>
    by_cases hmem : id ∈ reg.get folder
    · simpa [checkFolderLoop, hmem] using ih reg h
    · have h1 : i ∈ (reg.ensure folder).get g := by
        rw [Registry.get_ensure]; exact h
      cases hf : fetch id with
      | fail =>
        simp only [checkFolderLoop, if_neg hmem, hf]
        exact ih _ h1
      | exn =>
        simp only [checkFolderLoop, if_neg hmem, hf]
        exact h1
      | ok m =>
        simp only [checkFolderLoop, if_neg hmem, hf]
        split
        · exact ih _ (Registry.mem_get_addId_of_mem _ _ _ _ _ h1)
        · exact ih _ (Registry.mem_get_addId_of_mem _ _ _ _ _ h1)

theorem checkFolderLoop_skip (send : Embed → Bool) (fetch : Nat → FetchResult)
    (now : Int) (folder email_type : String) (ids : List Nat) (reg : Registry)
    (i : Nat) (h : i ∈ reg.get folder) :
    i ∉ (checkFolderLoop send fetch now folder email_type ids reg).fetched ∧
      ∀ e b, (i, e, b) ∉
        (checkFolderLoop send fetch now folder email_type ids reg).notified := by
  induction ids generalizing reg with
  | nil => simp [checkFolderLoop]
  | cons id rest ih =>
    by_cases hmem : id ∈ reg.get folder
    · simpa [checkFolderLoop, hmem] using ih reg h
    · have hne : id ≠ i := fun he => hmem (he ▸ h)
      have h1 : i ∈ (reg.ensure folder).get folder := by
        rw [Registry.get_ensure]; exact h
      cases hf : fetch id with
      | fail =>
        have := ih (reg.ensure folder) h1
        simp only [checkFolderLoop, if_neg hmem, hf]
        refine ⟨?_, ?_⟩
        · simp only [List.mem_cons, not_or]
          exact ⟨Ne.symm hne, this.1⟩
        · exact this.2
      | exn =>
        simp only [checkFolderLoop, if_neg hmem, hf]
        refine ⟨?_, ?_⟩
        · simp [Ne.symm hne]
        · simp
      | ok m =>
        have h2 : i ∈ ((reg.ensure folder).addId folder id).get folder :=
          Registry.mem_get_addId_of_mem _ _ _ _ _ h1
        have := ih ((reg.ensure folder).addId folder id) h2
        simp only [checkFolderLoop, if_neg hmem, hf]
        split
        · refine ⟨?_, ?_⟩
          · simp only [List.mem_cons, not_or]
            exact ⟨Ne.symm hne, this.1⟩
          · exact this.2
        · refine ⟨?_, ?_⟩
          · simp only [List.mem_cons, not_or]
            exact ⟨Ne.symm hne, this.1⟩
          · intro e b
            simp only [List.mem_cons, not_or]
            refine ⟨fun he => ?_, this.2 e b⟩
            exact Ne.symm hne (congrArg Prod.fst he)

theorem checkFolderLoop_registry_new (send : Embed → Bool)
    (fetch : Nat → FetchResult) (now : Int) (folder email_type : String)
    (ids : List Nat) (reg : Registry) (g : String) (i : Nat)
    (h : i ∈ (checkFolderLoop send fetch now folder email_type ids reg).registry.get g) :
    i ∈ reg.get g ∨ ∃ m, fetch i = FetchResult.ok m := by
  induction ids generalizing reg with
  | nil => simp only [checkFolderLoop] at h; exact Or.inl h
  | cons id rest ih =>
    by_cases hmem : id ∈ reg.get folder
    · simp only [checkFolderLoop, if_pos hmem] at h
      exact ih reg h
    · cases hf : fetch id with
      | fail =>
        simp only [checkFolderLoop, if_neg hmem, hf] at h
        rcases ih _ h with h1 | h1
        · rw [Registry.get_ensure] at h1; exact Or.inl h1
        · exact Or.inr h1
      | exn =>
        simp only [checkFolderLoop, if_neg hmem, hf] at h
        rw [Registry.get_ensure] at h
        exact Or.inl h
      | ok m =>
        simp only [checkFolderLoop, if_neg hmem, hf] at h
        have step : ∀ h1 : i ∈ ((reg.ensure folder).addId folder id).get g,
            i ∈ reg.get g ∨ ∃ m1, fetch i = FetchResult.ok m1 := by
          intro h1
          rcases Registry.mem_get_addId_elim _ _ _ _ _ h1 with h2 | h2
          · rw [Registry.get_ensure] at h2; exact Or.inl h2
          · subst h2; exact Or.inr ⟨m, hf⟩
        revert h
        split
        · intro h
          rcases ih _ h with h1 | h1
          · exact step h1
          · exact Or.inr h1
        · intro h
          rcases ih _ h with h1 | h1
          · exact step h1
          · exact Or.inr h1

theorem checkFolderLoop_fetched_subset (send : Embed → Bool)
    (fetch : Nat → FetchResult) (now : Int) (folder email_type : String)
    (ids : List Nat) (reg : Registry) :
    (checkFolderLoop send fetch now folder email_type ids reg).fetched ⊆ ids := by
  induction ids generalizing reg with
  | nil => simp [checkFolderLoop]
  | cons id rest ih =>
    by_cases hmem : id ∈ reg.get folder
    · simp only [checkFolderLoop, if_pos hmem]
      exact (ih reg).trans (List.subset_cons_self id rest)
    · cases hf : fetch id with
      | fail =>
        simp only [checkFolderLoop, if_neg hmem, hf]
        exact List.cons_subset_cons id (ih _)
      | exn =>
        simp only [checkFolderLoop, if_neg hmem, hf]
        intro x hx
        simp only [List.mem_singleton] at hx
        subst hx
        exact List.mem_cons_self _ _
      | ok m =>
        simp only [checkFolderLoop, if_neg hmem, hf]
        split
        · exact List.cons_subset_cons id (ih _)
        · exact List.cons_subset_cons id (ih _)

theorem checkFolderLoop_notified_sound (send : Embed → Bool)
    (fetch : Nat → FetchResult) (now : Int) (folder email_type : String)
    (ids : List Nat) (reg : Registry) (i : Nat) (e : Embed) (b : Bool)
    (h : (i, e, b) ∈ (checkFolderLoop send fetch now folder email_type ids reg).notified) :
    ∃ m, fetch i = FetchResult.ok m ∧
      ¬(email_type = "sent" ∧ sentAgeLimit < now - (m.date.getD now)) := by
  induction ids generalizing reg with
  | nil => simp [checkFolderLoop] at h
  | cons id rest ih =>
    by_cases hmem : id ∈ reg.get folder
    · simp only [checkFolderLoop, if_pos hmem] at h
      exact ih reg h
    · cases hf : fetch id with
      | fail =>
        simp only [checkFolderLoop, if_neg hmem, hf] at h
        exact ih _ h
      | exn =>
        simp only [checkFolderLoop, if_neg hmem, hf] at h
        simp at h
      | ok m =>
        simp only [checkFolderLoop, if_neg hmem, hf] at h
        revert h
        split
        · intro h
          exact ih _ h
        · intro h
          rcases List.mem_cons.mp h with h1 | h1
          · have hi : i = id := congrArg Prod.fst h1
            subst hi
            refine ⟨m, hf, ?_⟩
            assumption
          · exact ih _ h1

theorem checkFolderLoop_notified_marked (send : Embed → Bool)
    (fetch : Nat → FetchResult) (now : Int) (folder email_type : String)
    (ids : List Nat) (reg : Registry) (i : Nat) (e : Embed) (b : Bool)
    (h : (i, e, b) ∈ (checkFolderLoop send fetch now folder email_type ids reg).notified) :
    i ∈ (checkFolderLoop send fetch now folder email_type ids reg).registry.get folder := by
  induction ids generalizing reg with
  | nil => simp [checkFolderLoop] at h
  | cons id rest ih =>
    by_cases hmem : id ∈ reg.get folder
    · simp only [checkFolderLoop, if_pos hmem] at h ⊢
      exact ih reg h
    · cases hf : fetch id with
      | fail =>
        simp only [checkFolderLoop, if_neg hmem, hf] at h ⊢
        exact ih _ h
      | exn =>
        simp only [checkFolderLoop, if_neg hmem, hf] at h
        simp at h
      | ok m =>
        simp only [checkFolderLoop, if_neg hmem, hf] at h ⊢
        revert h
        split
        · intro h
          exact ih _ h
        · intro h
          rcases List.mem_cons.mp h with h1 | h1
          · have hi : i = id := congrArg Prod.fst h1
            subst hi
            refine checkFolderLoop_mono _ _ _ _ _ _ _ _ _ ?_
            exact Registry.mem_get_addId_self _ _ _
              (Registry.hasKey_ensure_self reg folder)
          · exact ih _ h1

theorem checkFolderLoop_added (send : Embed → Bool) (fetch : Nat → FetchResult)
    (now : Int) (folder email_type : String) (ids : List Nat) (reg : Registry)
    (i : Nat) (m : Msg) (hno : ∀ j ∈ ids, fetch j ≠ FetchResult.exn)
    (hi : i ∈ ids) (hfi : fetch i = FetchResult.ok m) :
    i ∈ (checkFolderLoop send fetch now folder email_type ids reg).registry.get folder := by
  induction ids generalizing reg with
  | nil => simp at hi
  | cons id rest ih =>
    have hno2 : ∀ j ∈ rest, fetch j ≠ FetchResult.exn :=
      fun j hj => hno j (List.mem_cons_of_mem _ hj)
    by_cases hmem : id ∈ reg.get folder
    · simp only [checkFolderLoop, if_pos hmem]
      rcases List.mem_cons.mp hi with h1 | h1
      · subst h1
        exact checkFolderLoop_mono _ _ _ _ _ _ _ _ _ hmem
      · exact ih _ hno2 h1
    · cases hf : fetch id with
      | fail =>
        simp only [checkFolderLoop, if_neg hmem, hf]
        rcases List.mem_cons.mp hi with h1 | h1
        · subst h1
          simp [hf] at hfi
        · exact ih _ hno2 h1
      | exn => exact absurd hf (hno id (List.mem_cons_self _ _))
      | ok m2 =>
        simp only [checkFolderLoop, if_neg hmem, hf]
        have hadd : id ∈ ((reg.ensure folder).addId folder id).get folder :=
          Registry.mem_get_addId_self _ _ _ (Registry.hasKey_ensure_self reg folder)
        rcases List.mem_cons.mp hi with h1 | h1
        · subst h1
          split
          · exact checkFolderLoop_mono _ _ _ _ _ _ _ _ _ hadd
          · exact checkFolderLoop_mono _ _ _ _ _ _ _ _ _ hadd
        · split
          · exact ih _ hno2 h1
          · exact ih _ hno2 h1

theorem checkFolderLoop_ok_true (send : Embed → Bool) (fetch : Nat → FetchResult)
    (now : Int) (folder email_type : String) (ids : List Nat) (reg : Registry)
    (hno : ∀ j ∈ ids, fetch j ≠ FetchResult.exn) :
    (checkFolderLoop send fetch now folder email_type ids reg).ok = true := by
  induction ids generalizing reg with
  | nil => simp [checkFolderLoop]
  | cons id rest ih =>
    have hno2 : ∀ j ∈ rest, fetch j ≠ FetchResult.exn :=
      fun j hj => hno j (List.mem_cons_of_mem _ hj)
    by_cases hmem : id ∈ reg.get folder
    · simp only [checkFolderLoop, if_pos hmem]
      exact ih _ hno2
    · cases hf : fetch id with
      | fail =>
        simp only [checkFolderLoop, if_neg hmem, hf]
        exact ih _ hno2
      | exn => exact absurd hf (hno id (List.mem_cons_self _ _))
      | ok m =>
        simp only [checkFolderLoop, if_neg hmem, hf]
        split
        · exact ih _ hno2
        · exact ih _ hno2

theorem checkFolderLoop_exn_abort (send : Embed → Bool) (fetch : Nat → FetchResult)
    (now : Int) (folder email_type : String) (pre : List Nat) (id : Nat)
    (post : List Nat) (reg : Registry)
    (hno : ∀ j ∈ pre, fetch j ≠ FetchResult.exn)
    (hexn : fetch id = FetchResult.exn) (hid : id ∉ reg.get folder) :
    (checkFolderLoop send fetch now folder email_type (pre ++ id :: post) reg).ok = false ∧
    id ∉ (checkFolderLoop send fetch now folder email_type (pre ++ id :: post) reg).registry.get folder ∧
    (checkFolderLoop send fetch now folder email_type (pre ++ id :: post) reg).fetched ⊆ pre ++ [id] := by
  induction pre generalizing reg with
  | nil =>
    simp only [List.nil_append, checkFolderLoop, if_neg hid, hexn]
    refine ⟨trivial, ?_, ?_⟩
    · rw [Registry.get_ensure]; exact hid
    · simp
  | cons j pre ih =>
    have hnoj : fetch j ≠ FetchResult.exn := hno j (List.mem_cons_self _ _)
    have hno2 : ∀ k ∈ pre, fetch k ≠ FetchResult.exn :=
      fun k hk => hno k (List.mem_cons_of_mem _ hk)
    by_cases hmem : j ∈ reg.get folder
    · simp only [List.cons_append, checkFolderLoop, if_pos hmem]
      have h3 := ih reg hno2 hid
      exact ⟨h3.1, h3.2.1, h3.2.2.trans (List.subset_cons_self _ _)⟩
    · cases hf : fetch j with
      | fail =>
        have hid1 : id ∉ (reg.ensure folder).get folder := by
          rw [Registry.get_ensure]; exact hid
        have h3 := ih (reg.ensure folder) hno2 hid1
        simp only [List.cons_append, checkFolderLoop, if_neg hmem, hf]
        refine ⟨h3.1, h3.2.1, ?_⟩
        intro x hx
        rcases List.mem_cons.mp hx with h1 | h1
        · subst h1; exact List.mem_cons_self _ _
        · exact List.mem_cons_of_mem _ (h3.2.2 h1)
      | exn => exact absurd hf hnoj
      | ok m =>
        have hid1 : id ∉ ((reg.ensure folder).addId folder j).get folder := by
          intro hcon
          rcases Registry.mem_get_addId_elim _ _ _ _ _ hcon with h1 | h1
          · rw [Registry.get_ensure] at h1; exact hid h1
          · subst h1; simp [hf] at hexn
        have h3 := ih ((reg.ensure folder).addId folder j) hno2 hid1
        simp only [List.cons_append, checkFolderLoop, if_neg hmem, hf]
        split
        · refine ⟨h3.1, h3.2.1, ?_⟩
          intro x hx
          rcases List.mem_cons.mp hx with h1 | h1
          · subst h1; exact List.mem_cons_self _ _
          · exact List.mem_cons_of_mem _ (h3.2.2 h1)
        · refine ⟨h3.1, h3.2.1, ?_⟩
          intro x hx
          rcases List.mem_cons.mp hx with h1 | h1
          · subst h1; exact List.mem_cons_self _ _
          · exact List.mem_cons_of_mem _ (h3.2.2 h1)

theorem checkFolderLoop_send_invariant (s1 s2 : Embed → Bool)
    (fetch : Nat → FetchResult) (now : Int) (folder email_type : String)
    (ids : List Nat) (reg : Registry) :
    (checkFolderLoop s1 fetch now folder email_type ids reg).ok =
      (checkFolderLoop s2 fetch now folder email_type ids reg).ok ∧
    (checkFolderLoop s1 fetch now folder email_type ids reg).registry =
      (checkFolderLoop s2 fetch now folder email_type ids reg).registry ∧
    (checkFolderLoop s1 fetch now folder email_type ids reg).fetched =
      (checkFolderLoop s2 fetch now folder email_type ids reg).fetched ∧
    (checkFolderLoop s1 fetch now folder email_type ids reg).notified.map
        (fun x => (x.1, x.2.1)) =
      (checkFolderLoop s2 fetch now folder email_type ids reg).notified.map
        (fun x => (x.1, x.2.1)) := by
  induction ids generalizing reg with
  | nil => simp [checkFolderLoop]
  | cons id rest ih =>
    by_cases hmem : id ∈ reg.get folder
    · simp only [checkFolderLoop, if_pos hmem]
      exact ih reg
    · cases hf : fetch id with
      | fail =>
        have h3 := ih (reg.ensure folder)
        simp only [checkFolderLoop, if_neg hmem, hf]
        exact ⟨h3.1, h3.2.1, congrArg (List.cons id) h3.2.2.1, h3.2.2.2⟩
      | exn =>
        simp only [checkFolderLoop, if_neg hmem, hf]
        exact ⟨trivial, trivial, trivial, trivial⟩
      | ok m =>
        simp only [checkFolderLoop, if_neg hmem, hf]
        split
        · have h3 := ih ((reg.ensure folder).addId folder id)
          exact ⟨h3.1, h3.2.1, congrArg (List.cons id) h3.2.2.1, h3.2.2.2⟩
        · have h3 := ih ((reg.ensure folder).addId folder id)
          exact ⟨h3.1, h3.2.1, congrArg (List.cons id) h3.2.2.1,
            congrArg (List.cons _) h3.2.2.2⟩

theorem checkFolderLoop_notified_nodup (send : Embed → Bool)
    (fetch : Nat → FetchResult) (now : Int) (folder email_type : String)
    (ids : List Nat) (reg : Registry) :
    ((checkFolderLoop send fetch now folder email_type ids reg).notified.map
      (fun x => x.1)).Nodup := by
  induction ids generalizing reg with
  | nil => simp [checkFolderLoop]
  | cons id rest ih =>
    by_cases hmem : id ∈ reg.get folder
    · simp only [checkFolderLoop, if_pos hmem]
      exact ih reg
    · cases hf : fetch id with
      | fail =>
        simp only [checkFolderLoop, if_neg hmem, hf]
        exact ih _
      | exn =>
        simp only [checkFolderLoop, if_neg hmem, hf]
        simp
      | ok m =>
        simp only [checkFolderLoop, if_neg hmem, hf]
        split
        · exact ih _
        · have hin : id ∈ ((reg.ensure folder).addId folder id).get folder :=
            Registry.mem_get_addId_self _ _ _ (Registry.hasKey_ensure_self reg folder)
          have hskip := checkFolderLoop_skip send fetch now folder email_type rest
            ((reg.ensure folder).addId folder id) id hin
          simp only [List.map_cons, List.nodup_cons]
          refine ⟨?_, ih _⟩
          intro hcon
          rcases List.mem_map.mp hcon with ⟨x, hx, hx1⟩
          obtain ⟨x1, x2, x3⟩ := x
          simp only at hx1
          subst hx1
          exact hskip.2 x2 x3 hx

/-! ### Embed content and folder-resolution lemmas -/

theorem pySlice_length (s : String) (n : Nat) :
    (pySlice s n).length = min n s.length := by
  cases s with
  | mk d => simp [pySlice, String.length, List.length_take]

theorem truncated_ne_empty (s : String) :
    pySlice s max_content_length ++ truncationMarker ≠ "" := by
  intro h
  have hl := congrArg String.length h
  rw [String.length_append, pySlice_length] at hl
  have h15 : truncationMarker.length = 15 := rfl
  have h0 : ("" : String).length = 0 := rfl
  rw [h15, h0] at hl
  omega

theorem contentValue_create_embed
    (email_type subject sender recipient content0 : String) (d : Int) :
    contentValue (create_embed email_type subject sender recipient content0 d) =
      pyOr (if content0.length > max_content_length then
              pySlice content0 max_content_length ++ truncationMarker
            else content0) "(No content)" := by
  simp only [create_embed, contentValue]
  split <;> rfl

theorem findSentFolderLoop_eq_find (selectOk : String → Bool) (l : List String) :
    findSentFolderLoop selectOk l = l.find? selectOk := by
  induction l with
  | nil => rfl
  | cons f rest ih =>
    by_cases h : selectOk f
    · simp [findSentFolderLoop, List.find?, h]
    · simp [findSentFolderLoop, List.find?, h, ih]

theorem check_folder_notified_sound (send : Embed → Bool) (now : Int)
    (mail : Mailbox) (folder email_type : String) (reg : Registry)
    (i : Nat) (e : Embed) (b : Bool)
    (h : (i, e, b) ∈ (check_folder send now mail folder email_type reg).notified) :
    ∃ m, mail.fetch i = FetchResult.ok m ∧
      ¬(email_type = "sent" ∧ sentAgeLimit < now - (m.date.getD now)) := by
  unfold check_folder at h
  cases hsel : mail.select folder with
  | none => rw [hsel] at h; simp at h
  | some n =>
    rw [hsel] at h
    cases hsearch : mail.search (searchCriteria email_type) with
    | none => rw [hsearch] at h; simp at h
    | some ids =>
      rw [hsearch] at h
      exact checkFolderLoop_notified_sound _ _ _ _ _ _ _ _ _ _ h

/-! ### Claim theorems -/

/-- C1: for every folder and every message identifier already present in the
processed-ID registry for that folder, a `check_folder` pass over that folder
never fetches that identifier again and never sends a notification for it. -/
theorem C1_processed_never_refetched (send : Embed → Bool) (now : Int)
    (mail : Mailbox) (folder email_type : String) (reg : Registry) (i : Nat)
    (h : i ∈ reg.get folder) :
    i ∉ (check_folder send now mail folder email_type reg).fetched ∧
    ∀ e b, (i, e, b) ∉ (check_folder send now mail folder email_type reg).notified := by
  unfold check_folder
  cases mail.select folder with
  | none => simp
  | some n =>
    cases mail.search (searchCriteria email_type) with
    | none => simp
    | some ids => exact checkFolderLoop_skip _ _ _ _ _ _ _ _ h

/-- Witness for C1 on a concrete mailbox and registry holding identifier 5. -/
theorem C1_witness :
    (5 ∈ Registry.get [("INBOX", [5])] "INBOX") ∧
    (5 ∉ (check_folder (fun _ => true) 0 c1Mail "INBOX" "received"
        [("INBOX", [5])]).fetched ∧
     ∀ e b, (5, e, b) ∉ (check_folder (fun _ => true) 0 c1Mail "INBOX" "received"
        [("INBOX", [5])]).notified) :=
  ⟨by decide, C1_processed_never_refetched _ _ _ _ _ _ _ (by decide)⟩

/-- C9: the processed-ID registry grows monotonically: every identifier
recorded for any folder before a `check_folder` call is still recorded
afterwards; no call removes identifiers. -/
theorem C9_registry_monotone (send : Embed → Bool) (now : Int) (mail : Mailbox)
    (folder email_type g : String) (reg : Registry) (i : Nat)
    (h : i ∈ reg.get g) :
    i ∈ (check_folder send now mail folder email_type reg).registry.get g := by
  unfold check_folder
  cases mail.select folder with
  | none => exact h
  | some n =>
    cases mail.search (searchCriteria email_type) with
    | none => exact h
    | some ids => exact checkFolderLoop_mono _ _ _ _ _ _ _ _ _ h

/-- Witness for C9 on a concrete registry holding identifier 7. -/
theorem C9_witness :
    7 ∈ Registry.get [("INBOX", [7])] "INBOX" ∧
    7 ∈ (check_folder (fun _ => true) 0 c1Mail "INBOX" "received"
        [("INBOX", [7])]).registry.get "INBOX" :=
  ⟨by decide, C9_registry_monotone _ _ _ _ _ _ _ _ (by decide)⟩

/-- C2: a message of the sent folder whose date is more than 300 seconds
older than the current time is never notified, and (when the pass reaches
it) its identifier is added to the registry. -/
theorem C2_sent_age_threshold (send : Embed → Bool) (now : Int) (mail : Mailbox)
    (folder : String) (reg : Registry) (i : Nat) (m : Msg)
    (hfetch : mail.fetch i = FetchResult.ok m)
    (hold : sentAgeLimit < now - (m.date.getD now)) :
    (∀ e b, (i, e, b) ∉ (check_folder send now mail folder "sent" reg).notified) ∧
    (∀ n ids, mail.select folder = some n → mail.search "ALL" = some ids →
      i ∈ ids → (∀ j ∈ ids, mail.fetch j ≠ FetchResult.exn) →
      i ∈ (check_folder send now mail folder "sent" reg).registry.get folder) := by
  constructor
  · intro e b hcon
    obtain ⟨m2, hm2, hnot⟩ :=
      check_folder_notified_sound send now mail folder "sent" reg i e b hcon
    rw [hfetch] at hm2
    injection hm2 with hm3
    subst hm3
    exact hnot ⟨rfl, hold⟩
  · intro n ids hsel hsearch hi hno
    have hsearch2 : mail.search (searchCriteria "sent") = some ids := hsearch
    simp only [check_folder, hsel, hsearch2]
    exact checkFolderLoop_added _ _ _ _ _ _ _ _ _ hno hi hfetch

/-- Witness for C2 on a concrete sent message dated 1000 seconds in the
past. -/
theorem C2_witness :
    c2Mail.fetch 3 = FetchResult.ok c2Msg ∧
    sentAgeLimit < 1000 - (c2Msg.date.getD 1000) ∧
    ((∀ e b, (3, e, b) ∉
        (check_folder (fun _ => true) 1000 c2Mail "Sent" "sent" initRegistry).notified) ∧
     (∀ n ids, c2Mail.select "Sent" = some n → c2Mail.search "ALL" = some ids →
       3 ∈ ids → (∀ j ∈ ids, c2Mail.fetch j ≠ FetchResult.exn) →
       3 ∈ (check_folder (fun _ => true) 1000 c2Mail "Sent" "sent"
         initRegistry).registry.get "Sent")) :=
  ⟨rfl, by decide, C2_sent_age_threshold _ _ _ _ _ _ _ rfl (by decide)⟩

/-- C3 counterexample: at a 3001-character content, the Content field built
by `create_embed` has length 3015, exceeding the configured maximum body
length of 3000, refuting the claim that the field length is at most 3000. -/
theorem C3_claim_counterexample :
    ¬ (contentValue (create_embed "received" "s" "a@x.com" "" longContent 0)).length
        ≤ max_content_length := by
  have hlong : longContent.length = 3001 := by
    show (List.replicate 3001 'a').length = 3001
    rw [List.length_replicate]
  have hm : max_content_length = 3000 := rfl
  have hgt : longContent.length > max_content_length := by
    rw [hlong, hm]
    norm_num
  rw [contentValue_create_embed, if_pos hgt]
  unfold pyOr
  rw [if_neg (truncated_ne_empty longContent), String.length_append,
    pySlice_length, hlong]
  have h15 : truncationMarker.length = 15 := rfl
  rw [h15, hm]
  norm_num

/-- C3 (amended): the Content field of the payload built by `create_embed`
has length at most `max_content_length + truncationMarker.length` (3015, the
3000-character cap plus the 15-character marker); when the input content
exceeds 3000 characters the field is the 3000-character prefix of the
content followed by the truncation marker. -/
theorem C3_content_field_truncation
    (email_type subject sender recipient content0 : String) (d : Int) :
    (contentValue (create_embed email_type subject sender recipient content0 d)).length
        ≤ max_content_length + truncationMarker.length ∧
    (content0.length > max_content_length →
      contentValue (create_embed email_type subject sender recipient content0 d) =
        pySlice content0 max_content_length ++ truncationMarker) := by
  rw [contentValue_create_embed]
  have h15 : truncationMarker.length = 15 := rfl
  have hm : max_content_length = 3000 := rfl
  by_cases hlen : content0.length > max_content_length
  · rw [if_pos hlen]
    have hne := truncated_ne_empty content0
    refine ⟨?_, fun _ => ?_⟩
    · unfold pyOr
      rw [if_neg hne, String.length_append, pySlice_length]
      exact Nat.add_le_add_right (Nat.min_le_left _ _) _
    · unfold pyOr
      rw [if_neg hne]
  · rw [if_neg hlen]
    refine ⟨?_, fun hcon => absurd hcon hlen⟩
    unfold pyOr
    split
    · have h12 : ("(No content)" : String).length = 12 := rfl
      rw [h12, h15, hm]
      norm_num
    · rw [h15, hm]
      rw [hm] at hlen
      omega

/-- Witness for C3 at the 3001-character content. -/
theorem C3_witness :
    longContent.length > max_content_length ∧
    contentValue (create_embed "received" "s" "a@x.com" "" longContent 0) =
      pySlice longContent max_content_length ++ truncationMarker :=
  ⟨by show 3000 < (List.replicate 3001 'a').length; rw [List.length_replicate]; norm_num,
   (C3_content_field_truncation "received" "s" "a@x.com" "" longContent 0).2
     (by show 3000 < (List.replicate 3001 'a').length; rw [List.length_replicate]; norm_num)⟩

/-- C4: in the scenario where the inbox holds exactly one unseen message
with subject "Hi" and sender "a@x.com" whose identifier is not yet in the
inbox registry, `check_folder` produces exactly one notification payload,
titled "Received" with a From field valued "a@x.com", and afterwards the
identifier is in the INBOX entry of the registry. -/
theorem C4_inbox_scenario (send : Embed → Bool) (content : String)
    (d : Option Int) (now : Int) :
    ∃ e b,
      (check_folder send now (c4Mailbox content d) "INBOX" "received"
          initRegistry).notified = [(1, e, b)] ∧
      e.title = "Received" ∧
      EmbedField.mk "From" "a@x.com" true ∈ e.fields ∧
      1 ∈ (check_folder send now (c4Mailbox content d) "INBOX" "received"
          initRegistry).registry.get "INBOX" := by
  refine ⟨create_embed "received" "Hi" "a@x.com" "" content (d.getD now),
    send (create_embed "received" "Hi" "a@x.com" "" content (d.getD now)),
    rfl, rfl, ?_, ?_⟩
  · exact List.mem_cons_self _ _
  · exact List.mem_cons_self _ _

/-- C5: `find_sent_folder` returns the first candidate of the fixed ordered
list whose select succeeds (`List.find?` semantics); when no candidate
selects successfully it returns none, and every iteration of the monitoring
loop still checks the inbox. -/
theorem C5_sent_folder_first_match (selectOk : String → Bool) :
    find_sent_folder selectOk = possible_sent_folders.find? selectOk ∧
    ((∀ f ∈ possible_sent_folders, selectOk f = false) →
      find_sent_folder selectOk = none ∧
      ∀ (st : MonitorState) (k : Nat) (checks : List String),
        checks ∈ monitorRun selectOk st k → "INBOX" ∈ checks) := by
  have hfind : find_sent_folder selectOk = possible_sent_folders.find? selectOk :=
    findSentFolderLoop_eq_find selectOk possible_sent_folders
  refine ⟨hfind, fun hall => ⟨?_, ?_⟩⟩
  · rw [hfind, List.find?_eq_none]
    intro f hf
    simp [hall f hf]
  · intro st k
    induction k generalizing st with
    | zero =>
      intro checks h
      simp [monitorRun] at h
    | succ k ih =>
      intro checks h
      simp only [monitorRun] at h
      rcases List.mem_cons.mp h with h1 | h1
      · subst h1
        exact List.mem_cons_self _ _
      · exact ih _ _ h1

/-- Witness for C5 with a select that always fails. -/
theorem C5_witness :
    (∀ f ∈ possible_sent_folders, (fun _ : String => false) f = false) ∧
    (find_sent_folder (fun _ => false) = none ∧
     ∀ (st : MonitorState) (k : Nat) (checks : List String),
       checks ∈ monitorRun (fun _ => false) st k → "INBOX" ∈ checks) :=
  ⟨by simp, (C5_sent_folder_first_match (fun _ => false)).2 (by simp)⟩

/-- C6: `send_discord_webhook` returns success exactly when the POST of the
payload returns status 204; any other status and a raised exception give
failure, and exactly one POST is performed per call (no retry). -/
theorem C6_webhook_success_iff_204 (post : WebhookPayload → PostOutcome)
    (e : Embed) :
    ((send_discord_webhook post e).1 = true ↔
      post ⟨[e]⟩ = PostOutcome.response 204) ∧
    (send_discord_webhook post e).2 = [⟨[e]⟩] := by
  simp only [send_discord_webhook]
  cases hp : post ⟨[e]⟩ with
  | response code =>
    by_cases hc : code = 204
    · subst hc
      simp
    · simp [hc]
  | exn => simp

/-- C7: a message whose webhook send was attempted (in particular one whose
send failed) is still added to the registry for its folder; send attempts
are never repeated for an identifier within the pass; and the registry and
the attempted notifications are identical whatever the send results are. -/
theorem C7_failed_send_not_retried_still_marked (send : Embed → Bool)
    (now : Int) (mail : Mailbox) (folder email_type : String) (reg : Registry) :
    (∀ i e b, (i, e, b) ∈ (check_folder send now mail folder email_type reg).notified →
      i ∈ (check_folder send now mail folder email_type reg).registry.get folder) ∧
    ((check_folder send now mail folder email_type reg).notified.map
        (fun x => x.1)).Nodup ∧
    (∀ send2 : Embed → Bool,
      (check_folder send2 now mail folder email_type reg).registry =
        (check_folder send now mail folder email_type reg).registry ∧
      (check_folder send2 now mail folder email_type reg).notified.map
          (fun x => (x.1, x.2.1)) =
        (check_folder send now mail folder email_type reg).notified.map
          (fun x => (x.1, x.2.1))) := by
  unfold check_folder
  cases mail.select folder with
  | none =>
    exact ⟨fun i e b h => by simp at h, by simp, fun send2 => ⟨rfl, rfl⟩⟩
  | some n =>
    cases mail.search (searchCriteria email_type) with
    | none =>
      exact ⟨fun i e b h => by simp at h, by simp, fun send2 => ⟨rfl, rfl⟩⟩
    | some ids =>
      refine ⟨fun i e b h => checkFolderLoop_notified_marked _ _ _ _ _ _ _ _ _ _ h,
        checkFolderLoop_notified_nodup _ _ _ _ _ _ _, fun send2 => ?_⟩
      have h3 := checkFolderLoop_send_invariant send2 send mail.fetch now folder
        email_type ids reg
      exact ⟨h3.2.1, h3.2.2.2⟩

/-- Witness for C7 with an always-failing send. -/
theorem C7_witness :
    (4, c7Embed, false) ∈
      (check_folder (fun _ => false) 5 c7Mail "INBOX" "received"
        initRegistry).notified ∧
    4 ∈ (check_folder (fun _ => false) 5 c7Mail "INBOX" "received"
        initRegistry).registry.get "INBOX" :=
  ⟨by decide,
   (C7_failed_send_not_retried_still_marked _ _ _ _ _ _).1 4 c7Embed false (by decide)⟩

/-- C8 counterexample: with two messages where decoding the first raises,
the pass neither marks the failing identifier processed nor continues to the
second message, refuting the claim that a decode failure is skipped, marked
processed and the pass continues. -/
theorem C8_claim_counterexample :
    1 ∉ (check_folder (fun _ => true) 0 c8Mail "INBOX" "received"
        initRegistry).registry.get "INBOX" ∧
    2 ∉ (check_folder (fun _ => true) 0 c8Mail "INBOX" "received"
        initRegistry).fetched := by
  decide

/-- C8 (amended): a decode exception aborts the folder pass: the call
returns failure, the failing identifier is not marked processed, and the
messages after it are not fetched in that pass; an identifier is only ever
added to the registry by the pass when its fetch decodes successfully, so a
non-OK fetch status leaves the message unmarked while the pass (absent any
decode exception) still completes successfully. -/
theorem C8_decode_failure_aborts_pass (send : Embed → Bool) (now : Int)
    (mail : Mailbox) (folder email_type : String) (reg : Registry)
    (n : Nat) (ids : List Nat)
    (hsel : mail.select folder = some n)
    (hsearch : mail.search (searchCriteria email_type) = some ids) :
    (∀ pre i post, ids = pre ++ i :: post →
      (∀ j ∈ pre, mail.fetch j ≠ FetchResult.exn) →
      mail.fetch i = FetchResult.exn → i ∉ reg.get folder →
      (check_folder send now mail folder email_type reg).ok = false ∧
      i ∉ (check_folder send now mail folder email_type reg).registry.get folder ∧
      ∀ j ∈ post, j ∉ pre → j ≠ i →
        j ∉ (check_folder send now mail folder email_type reg).fetched) ∧
    (∀ i g, i ∉ reg.get g → (∀ m, mail.fetch i ≠ FetchResult.ok m) →
      i ∉ (check_folder send now mail folder email_type reg).registry.get g) ∧
    ((∀ j ∈ ids, mail.fetch j ≠ FetchResult.exn) →
      (check_folder send now mail folder email_type reg).ok = true) := by
  simp only [check_folder, hsel, hsearch]
  refine ⟨?_, ?_, ?_⟩
  · intro pre i post hids hno hexn hi
    subst hids
    have h3 := checkFolderLoop_exn_abort send mail.fetch now folder email_type
      pre i post reg hno hexn hi
    refine ⟨h3.1, h3.2.1, ?_⟩
    intro j hj hjpre hji hcon
    rcases List.mem_append.mp (h3.2.2 hcon) with h1 | h1
    · exact hjpre h1
    · simp only [List.mem_singleton] at h1
      exact hji h1
  · intro i g hi hok hcon
    rcases checkFolderLoop_registry_new _ _ _ _ _ _ _ _ _ hcon with h1 | h1
    · exact hi h1
    · obtain ⟨m, hm⟩ := h1
      exact hok m hm
  · intro hno
    exact checkFolderLoop_ok_true _ _ _ _ _ _ _ hno

/-- Witness for C8 on the concrete two-message mailbox with a decode
exception at the first message. -/
theorem C8_witness :
    (check_folder (fun _ => true) 0 c8Mail "INBOX" "received" initRegistry).ok
        = false ∧
    1 ∉ (check_folder (fun _ => true) 0 c8Mail "INBOX" "received"
        initRegistry).registry.get "INBOX" ∧
    ∀ j ∈ [2], j ∉ ([] : List Nat) → j ≠ 1 →
      j ∉ (check_folder (fun _ => true) 0 c8Mail "INBOX" "received"
        initRegistry).fetched :=
  (C8_decode_failure_aborts_pass (fun _ => true) 0 c8Mail "INBOX" "received"
      initRegistry 2 [1, 2] rfl rfl).1
    [] 1 [2] rfl (by simp) rfl (by decide)

/-- C10: the `check_interval` constructor argument has no effect: the stored
poll interval always comes from the CHECK_INTERVAL environment variable
(default 60), so constructions differing only in that argument are equal. -/
theorem C10_check_interval_from_env_only (env : Env) (server : String)
    (port : Nat) (user pass hook : String) (ci1 ci2 : Int) :
    EmailMonitor.init env server port user pass hook ci1 =
      EmailMonitor.init env server port user pass hook ci2 ∧
    (EmailMonitor.init env server port user pass hook ci1).check_interval =
      (env.CHECK_INTERVAL).getD 60 :=
  ⟨rfl, rfl⟩
